import Mathlib

/-!
Shallow embedding of the NUT protocol client of exelban/nutshell
(pkg/nut: client and ups.go), together with theorems settling the
frozen specification claims. Go strings are modelled as lists of
characters; machine integers as Int/Nat with explicit range checks.
-/

set_option maxRecDepth 8192

/-- Go strings are modelled as lists of characters (runes). -/
abbrev GStr := List Char

/-- Conversion from a Lean string literal to the Go string model. -/
def gs (s : String) : GStr := s.data

/-- Character class of Go unicode.IsSpace (the Unicode White_Space property). -/
def goIsSpace (c : Char) : Bool :=
  let n := c.toNat
  (9 ≤ n && n ≤ 13) || n == 32 || n == 133 || n == 160 || n == 0x1680 ||
  (0x2000 ≤ n && n ≤ 0x200a) || n == 0x2028 || n == 0x2029 || n == 0x202f ||
  n == 0x205f || n == 0x3000

/-- Split a character list at every character satisfying p (Go strings.Split family). -/
def splitPred (p : Char → Bool) : GStr → List GStr
  | [] => [[]]
  | c :: cs =>
    match splitPred p cs with
    | [] => [[]]
    | r :: rs => if p c then [] :: r :: rs else (c :: r) :: rs

/-- Go strings.Split with a single-character separator. -/
def splitChar (c : Char) (s : GStr) : List GStr := splitPred (fun x => x == c) s

/-- Go strings.Join with the given separator. -/
def joinSep (sep : GStr) : List GStr → GStr
  | [] => []
  | [x] => x
  | x :: y :: xs => x ++ sep ++ joinSep sep (y :: xs)

/-- Go strings.SplitN with a single-character separator and positive n. -/
def splitNChar (c : Char) (n : Nat) (s : GStr) : List GStr :=
  let parts := splitChar c s
  if parts.length ≤ n then parts
  else parts.take (n - 1) ++ [joinSep [c] (parts.drop (n - 1))]

/-- Go strings.TrimPrefix: drop the prefix when present, otherwise unchanged. -/
def goTrimPrefixL (p s : GStr) : GStr :=
  if List.isPrefixOf p s then s.drop p.length else s

/-- Go strings.TrimSuffix: drop the suffix when present, otherwise unchanged. -/
def goTrimSuffixL (p s : GStr) : GStr :=
  if List.isSuffixOf p s then s.take (s.length - p.length) else s

/-- Go strings.TrimSpace. -/
def goTrimSpace (s : GStr) : GStr :=
  ((s.dropWhile goIsSpace).reverse.dropWhile goIsSpace).reverse

/-- Go strings.Fields: whitespace-separated fields, empty fields removed. -/
def goFields (s : GStr) : List GStr :=
  (splitPred goIsSpace s).filter (fun x => !x.isEmpty)

/-- ASCII lower-casing as applied by strings.ToLower to the ASCII status table values. -/
def asciiLowerChar (c : Char) : Char :=
  if c.toNat ≥ 65 && c.toNat ≤ 90 then Char.ofNat (c.toNat + 32) else c

/-- Lower-case every character of a string (ASCII range). -/
def asciiLower (s : GStr) : GStr := s.map asciiLowerChar

/-- Decimal digit test used by the numeric pattern. -/
def isDigitCh (c : Char) : Bool := 48 ≤ c.toNat && c.toNat ≤ 57

/-- Numeric value of a decimal digit character. -/
def digitVal (c : Char) : Nat := c.toNat - 48

/-- Value of a string of decimal digits. -/
def digitsToNat (ds : GStr) : Nat := ds.foldl (fun a c => 10 * a + digitVal c) 0

/-- Full match of the Go regular expression used by GetVariables
(ups.go line 314): one optional minus sign, digits, optionally a dot
followed by digits. -/
def matchesNumeric (s : GStr) : Bool :=
  let t := if s.head? == some '-' then s.drop 1 else s
  let ip := t.takeWhile isDigitCh
  let rest := t.dropWhile isDigitCh
  if ip.isEmpty then false
  else
    match rest with
    | [] => true
    | '.' :: fp => !fp.isEmpty && fp.all isDigitCh
    | _ => false

/-- Containment test for one character (Go strings.Contains with a one-character needle). -/
def containsChar (c : Char) (s : GStr) : Bool := s.any (fun x => x == c)

/-- Go strconv.ParseInt with base 10 and bitSize 64: none on a syntax
error or a value outside the signed 64-bit range. -/
def parseInt64 (s : GStr) : Option Int :=
  let neg : Bool :=
    match s with
    | '-' :: _ => true
    | _ => false
  let t : GStr :=
    match s with
    | '-' :: r => r
    | '+' :: r => r
    | r => r
  if t.isEmpty || !t.all isDigitCh then none
  else
    let v : Int := if neg then -(digitsToNat t : Int) else (digitsToNat t : Int)
    if v < -(2 ^ 63) ∨ (2 ^ 63 : Int) ≤ v then none else some v

/-- Fractional digits of the residue after the integer digits: the
digits after the dot when present, empty otherwise. -/
def fracPart (rest : GStr) : GStr :=
  match rest with
  | '.' :: f => f
  | _ => []

/-- Exact rational value of a string matching the numeric pattern
(the decimal the Go parser reads before rounding to IEEE 754). -/
def decToRat (s : GStr) : ℚ :=
  let neg := s.head? == some '-'
  let t := if neg then s.drop 1 else s
  let fp := fracPart (t.dropWhile isDigitCh)
  let q : ℚ := (digitsToNat (t.takeWhile isDigitCh ++ fp) : ℚ) / ((10 : ℚ) ^ fp.length)
  if neg then -q else q

/-- Largest decimal magnitude Go strconv.ParseFloat accepts for a
64-bit float: values at or above 2^1024 - 2^970 round to infinity and
produce a range error. -/
def float64Bound : ℚ := ((2 : ℚ) ^ 1024) - ((2 : ℚ) ^ 970)

/-- Success of Go strconv.ParseFloat (64-bit) on a string already
matching the numeric pattern: a range error happens exactly when the
magnitude reaches float64Bound and rounds to infinity (underflow
rounds to zero without error). The comparison is stated on the digit
value over the naturals so that it computes by evaluation; the
theorem parseFloat64Ok_spec shows it is the bound on the absolute
decimal value. -/
def parseFloat64Ok (s : GStr) : Bool :=
  let t := if s.head? == some '-' then s.drop 1 else s
  let fp := fracPart (t.dropWhile isDigitCh)
  decide (digitsToNat (t.takeWhile isDigitCh ++ fp) < (2 ^ 1024 - 2 ^ 970) * 10 ^ fp.length)

/-- Runtime value of a NUT variable: the Go any field holding a
string, int64, float64 or bool. Floats carry the exact decimal the
parser accepted (Go stores its IEEE 754 rounding; no claim inspects
the rounded value). -/
inductive GoValue where
  | str (s : GStr)
  | int (i : Int)
  | float (q : ℚ)
  | boolean (b : Bool)
deriving DecidableEq

/-- Value/type inference of GetVariables (ups.go lines 306-329)
applied to a raw value string, given the server-declared type: the
stored value and the stored type tag. -/
def inferValue (valueStr : GStr) (serverType : GStr) : GoValue × GStr :=
  if valueStr = gs "enabled" then (GoValue.boolean true, gs "BOOLEAN")
  else if valueStr = gs "disabled" then (GoValue.boolean false, gs "BOOLEAN")
  else if matchesNumeric valueStr then
    if containsChar '.' valueStr then
      if parseFloat64Ok valueStr then (GoValue.float (decToRat valueStr), gs "FLOAT_64")
      else (GoValue.str valueStr, serverType)
    else
      match parseInt64 valueStr with
      | some i => (GoValue.int i, gs "INTEGER")
      | none => (GoValue.str valueStr, serverType)
  else (GoValue.str valueStr, gs "STRING")

/-- One line as delivered by bufio ReadString: the payload followed by
the newline terminator. -/
def lineOf (content : GStr) : GStr := content ++ ['\n']

/-- Model of Client.readResponse (client file lines 199-220). The
stream is the list of lines the buffered reader yields for this
command, each normally ending in a newline; an exhausted stream models
a read error (timeout or closed connection). Every read line is
appended to the response, and the loop breaks once the raw line equals
endLine or immediately after the first line for a single-line command. -/
def readResponse (stream : List GStr) (endLine : GStr) (multiLineResponse : Bool) :
    Option (List GStr) :=
  match stream with
  | [] => none
  | line :: rest =>
    if line.isEmpty then readResponse rest endLine multiLineResponse
    else
      let cleanLine := goTrimSuffixL (gs "\n") line
      let lines := splitChar '\n' cleanLine
      if line = endLine ∨ multiLineResponse = false then some lines
      else
        match readResponse rest endLine multiLineResponse with
        | some r => some (lines ++ r)
        | none => none

/-- Model of Client.sendCommand (client file lines 178-198) for one
command whose raw response stream is given. The end line is OK for the
six single-line prefixes, END plus the echoed command otherwise; only
commands starting with LIST are read as multi-line. A first response
line starting with ERR surfaces the second space-delimited token as
the error. An empty response list cannot be produced by readResponse;
the Go code would panic there and the model returns an error. -/
def sendCommandM (stream : List GStr) (cmd : GStr) : Except GStr (List GStr) :=
  let cmdLine := cmd ++ gs "\n"
  let endLine :=
    if List.isPrefixOf (gs "USERNAME ") cmdLine ∨ List.isPrefixOf (gs "PASSWORD ") cmdLine ∨
       List.isPrefixOf (gs "SET ") cmdLine ∨ List.isPrefixOf (gs "HELP ") cmdLine ∨
       List.isPrefixOf (gs "VER ") cmdLine ∨ List.isPrefixOf (gs "NETVER ") cmdLine
    then gs "OK\n" else gs "END " ++ cmdLine
  match readResponse stream endLine (List.isPrefixOf (gs "LIST ") cmdLine) with
  | none => Except.error (gs "error reading response")
  | some resp =>
    match resp with
    | [] => Except.error (gs "panic: empty response")
    | r0 :: _ =>
      if List.isPrefixOf (gs "ERR ") r0 then Except.error ((splitChar ' ' r0).getD 1 [])
      else Except.ok resp

/-- Network environment: the response line stream the server produces
for each command that is sent. -/
def NetEnv := GStr → List GStr

/-- Sending one command through the environment. -/
def sendCommandE (env : NetEnv) (cmd : GStr) : Except GStr (List GStr) :=
  sendCommandM (env cmd) cmd

/-- Model of the Variable record (ups.go lines 34-42). -/
structure GoVariable where
  name : GStr
  value : GoValue
  type : GStr
  description : GStr
  writeable : Bool
  maximumLength : Int
  originalType : GStr
deriving DecidableEq

/-- Model of the UPS record (ups.go lines 15-31); the session handle
and poll interval are runtime plumbing and carry no protocol state.
The Go field Variables is called varList here because that identifier
is reserved in Lean. -/
structure GoUPS where
  server : GStr
  name : GStr
  description : GStr
  manufacturer : GStr
  model : GStr
  vendorID : GStr
  productID : GStr
  clients : List GStr
  varList : List GoVariable
deriving DecidableEq

/-- Linear scan of the variable snapshot (loop of ups.go lines 422-426). -/
def lookupVar : List GoVariable → GStr → Option GoValue
  | [], _ => none
  | v :: vs, nm => if v.name = nm then some v.value else lookupVar vs nm

/-- Model of UPS.getVariable (ups.go lines 421-428): value of the
first variable with the given name, none for the Go nil interface. -/
def getVariableM (u : GoUPS) (nm : GStr) : Option GoValue :=
  lookupVar u.varList nm

/-- The NUTStatusHumanReadable table (ups.go lines 49-66). -/
def statusTable : List (GStr × GStr) :=
  [(gs "OL", gs "Online"), (gs "OB", gs "On Battery"), (gs "LB", gs "Low Battery"),
   (gs "RB", gs "Replace Battery"), (gs "CHRG", gs "Charging"),
   (gs "DISCHRG", gs "Discharging"), (gs "BYPASS", gs "Bypass Active"),
   (gs "CAL", gs "Calibrating"), (gs "OFF", gs "Offline"), (gs "OVER", gs "Overload"),
   (gs "TRIM", gs "SmartTrim"), (gs "BOOST", gs "SmartBoost"),
   (gs "FSD", gs "Forced Shutdown"), (gs "ALARM", gs "Alarm"),
   (gs "TEST", gs "Self Test"), (gs "COMM", gs "Communication Lost")]

/-- Lookup in the status table (Go map access with ok flag). -/
def statusLookup (code : GStr) : Option GStr :=
  (statusTable.find? (fun p => p.1 == code)).map (fun p => p.2)

/-- Loop body of GetStatus building the description list (ups.go lines
164-174): a known code is lower-cased when descriptions are already
present, an unknown code appends the literal Unknown unconditionally. -/
def statusDescs (acc : List GStr) : List GStr → List GStr
  | [] => acc
  | code :: rest =>
    match statusLookup code with
    | some d => statusDescs (acc ++ [if acc.isEmpty then d else asciiLower d]) rest
    | none => statusDescs (acc ++ [gs "Unknown"]) rest

/-- Model of UPS.GetStatus (ups.go lines 157-177): the joined human
string and the raw status code string. -/
def getStatusM (u : GoUPS) : GStr × GStr :=
  let statusCode :=
    match getVariableM u (gs "ups.status") with
    | some (GoValue.str s) => s
    | _ => []
  (joinSep (gs ", ") (statusDescs [] (goFields statusCode)), statusCode)

/-- Reduction of an integer into the signed 64-bit range, the
two's-complement wraparound of Go int64 arithmetic. -/
def wrap64 (n : Int) : Int := (n + 2 ^ 63) % 2 ^ 64 - 2 ^ 63

/-- Model of UPS.GetLoad (ups.go lines 195-214). Go int64
multiplication wraps around on overflow (wrap64) and int64 division
truncates toward zero (Int.tdiv); dividing a 64-bit value by 100
cannot overflow again. -/
def getLoadM (u : GoUPS) : Int × Int :=
  let load :=
    match getVariableM u (gs "ups.load") with
    | some (GoValue.int v) => v
    | _ => 0
  let power :=
    match getVariableM u (gs "ups.realpower") with
    | some (GoValue.int v) => v
    | _ =>
      let nominal :=
        match getVariableM u (gs "ups.realpower.nominal") with
        | some (GoValue.int v) => v
        | _ =>
          match getVariableM u (gs "ups.power.nominal") with
          | some (GoValue.int v) => v
          | _ => 0
      Int.tdiv (wrap64 (load * nominal)) 100
  (load, power)

/-- Model of UPS.GetVariableDescription (ups.go lines 349-359). -/
def getVariableDescriptionM (env : NetEnv) (upsName varName : GStr) : Except GStr GStr :=
  match sendCommandE env (gs "GET DESC " ++ upsName ++ gs " " ++ varName) with
  | Except.error e => Except.error e
  | Except.ok resp =>
    let trimmedLine :=
      goTrimPrefixL (gs "DESC " ++ upsName ++ gs " " ++ varName ++ gs " ") (resp.getD 0 [])
    Except.ok (trimmedLine.filter (fun c => c != '"'))

/-- Model of UPS.GetVariableType (ups.go lines 360-386). Go indexes
splitLine with no bounds check when the reply claims RW but carries no
type; that panic is modelled as an error. -/
def getVariableTypeM (env : NetEnv) (upsName varName : GStr) :
    Except GStr (GStr × Bool × Int) :=
  match sendCommandE env (gs "GET TYPE " ++ upsName ++ gs " " ++ varName) with
  | Except.error e => Except.error e
  | Except.ok resp =>
    let trimmedLine :=
      goTrimPrefixL (gs "TYPE " ++ upsName ++ gs " " ++ varName ++ gs " ") (resp.getD 0 [])
    let splitLine := splitChar ' ' trimmedLine
    if splitLine.getD 0 [] = gs "RW" then
      match splitLine with
      | _ :: vt :: _ =>
        if List.isPrefixOf (gs "STRING:") vt then
          let splitType := splitChar ':' vt
          match parseInt64 (splitType.getD 1 []) with
          | some ml => Except.ok (splitType.getD 0 [], true, ml)
          | none => Except.error (gs "invalid maximum length")
        else Except.ok (vt, true, 0)
      | _ => Except.error (gs "panic: index out of range")
    else Except.ok (splitLine.getD 0 [], false, 0)

/-- Per-line processing of GetVariables (ups.go lines 278-332): strip
the VAR prefix, split at quotes, skip malformed lines, fetch the
description and type for the variable, run value inference. The first
failed fetch aborts the whole enumeration. -/
def processVarLines (env : NetEnv) (upsName : GStr) : List GStr → Except GStr (List GoVariable)
  | [] => Except.ok []
  | line :: rest =>
    let cleanedLine := goTrimPrefixL (gs "VAR " ++ upsName ++ gs " ") line
    let splitLine := splitNChar '"' 3 cleanedLine
    if splitLine.length < 2 then processVarLines env upsName rest
    else
      let nm := goTrimSpace (goTrimSuffixL (gs " ") (splitLine.getD 0 []))
      let valueStr := goTrimSpace (splitLine.getD 1 [])
      match getVariableDescriptionM env upsName nm with
      | Except.error e => Except.error e
      | Except.ok desc =>
        match getVariableTypeM env upsName nm with
        | Except.error e => Except.error e
        | Except.ok (varType, writeable, maxLen) =>
          let vt := inferValue valueStr varType
          match processVarLines env upsName rest with
          | Except.error e => Except.error e
          | Except.ok vs =>
            Except.ok ({ name := nm, value := vt.1, type := vt.2, description := desc,
                         writeable := writeable, maximumLength := maxLen,
                         originalType := varType } :: vs)

/-- Model of UPS.GetVariables (ups.go lines 270-336): the response of
LIST VAR is sliced to its interior lines and processed; on success the
snapshot field is replaced wholesale, on any failure the UPS record is
returned unchanged. Go would panic on a one-line response where the
model slices to an empty list. -/
def getVariablesM (env : NetEnv) (u : GoUPS) : GoUPS × Except GStr (List GoVariable) :=
  match sendCommandE env (gs "LIST VAR " ++ u.name) with
  | Except.error e => (u, Except.error e)
  | Except.ok resp =>
    match processVarLines env u.name ((resp.drop 1).dropLast) with
    | Except.error e => (u, Except.error e)
    | Except.ok vars => ({ u with varList := vars }, Except.ok vars)

/-- A device as held by the registry: its derived identifier and its
server-reported name. The bootstrap network traffic of NewUPS is
abstracted by the function passed to the discovery model. -/
structure DiscoveredUPS where
  id : GStr
  name : GStr
deriving DecidableEq

/-- Lookup in the association-list view of the Go map Client.list. -/
def regLookup : List (GStr × DiscoveredUPS) → GStr → Option DiscoveredUPS
  | [], _ => none
  | p :: ps, k => if p.1 = k then some p.2 else regLookup ps k

/-- Name extraction from one LIST UPS line (client file lines 253-255):
strip the UPS prefix, split at the first double quote, drop one
trailing space. -/
def parseUPSName (line : GStr) : GStr :=
  goTrimSuffixL (gs " ") ((splitChar '"' (goTrimPrefixL (gs "UPS ") line)).getD 0 [])

/-- Model of Client.getListOfUPS (client file lines 246-268) given the
response lines of LIST UPS. The bootstrap argument abstracts NewUPS:
none is a failed bootstrap (logged and skipped), some is the
constructed device with its derived identifier. A successfully built
device is inserted only when its identifier is not yet present. -/
def discoverStep (bootstrap : GStr → Option DiscoveredUPS)
    (reg : List (GStr × DiscoveredUPS)) (line : GStr) : List (GStr × DiscoveredUPS) :=
  if List.isPrefixOf (gs "UPS ") line then
    match bootstrap (parseUPSName line) with
    | none => reg
    | some u =>
      match regLookup reg u.id with
      | none => reg ++ [(u.id, u)]
      | some _ => reg
  else reg

/-- Folding the per-line step of getListOfUPSM over the whole response
starting from the empty registry. -/
def getListOfUPSM (bootstrap : GStr → Option DiscoveredUPS) (resp : List GStr) :
    List (GStr × DiscoveredUPS) :=
  resp.foldl (discoverStep bootstrap) []

/-- Model of the Client record (client file lines 55-69) restricted to
protocol state: versions, stored credentials and endpoint, and the
device registry. -/
structure GoClient where
  version : GStr
  protocolVersion : GStr
  hostname : GStr
  port : GStr
  username : GStr
  password : GStr
  list : List (GStr × DiscoveredUPS)

/-- Network environment of a reconnect: whether resolving and dialing
the stored endpoint succeeds, and the per-command response streams of
the fresh connection. -/
structure DialEnv where
  dialOk : Bool
  respond : NetEnv

/-- Model of Client.authenticate (client file lines 223-241): USERNAME
then PASSWORD, each of which must answer with the single line OK;
the Go (bool, error) pair collapses to success iff no error occurred
and both replies were OK. -/
def authenticateM (env : NetEnv) (username password : GStr) : Bool :=
  match sendCommandE env (gs "USERNAME " ++ username) with
  | Except.error _ => false
  | Except.ok resp =>
    if resp.getD 0 [] ≠ gs "OK" then false
    else
      match sendCommandE env (gs "PASSWORD " ++ password) with
      | Except.error _ => false
      | Except.ok resp2 => resp2.getD 0 [] == gs "OK"

/-- Model of Client.Reconnect (client file lines 116-145): the old
connection is closed with the close error ignored, the endpoint is
re-resolved and re-dialed, authentication and the VER and NETVER
negotiations are redone; the device registry field is never touched
and discovery is not re-run. The returned option is the Go error. -/
def reconnectM (env : DialEnv) (c : GoClient) : GoClient × Option GStr :=
  if env.dialOk = false then (c, some (gs "failed to reconnect to server"))
  else if authenticateM env.respond c.username c.password = false then
    (c, some (gs "failed to authenticate after reconnect"))
  else
    match sendCommandE env.respond (gs "VER") with
    | Except.error _ => (c, some (gs "failed to get version after reconnect"))
    | Except.ok respV =>
      if respV.length < 1 then (c, some (gs "failed to get version after reconnect"))
      else
        match sendCommandE env.respond (gs "NETVER") with
        | Except.error _ =>
          ({ c with version := respV.getD 0 [] },
           some (gs "failed to get network protocol version after reconnect"))
        | Except.ok respN =>
          if respN.length < 1 then
            ({ c with version := respV.getD 0 [] },
             some (gs "failed to get network protocol version after reconnect"))
          else
            ({ c with version := respV.getD 0 [], protocolVersion := respN.getD 0 [] }, none)

/-- Observable actions of one poller tick. -/
inductive PollAct where
  | fetchVars
  | reconnectTry
deriving DecidableEq

/-- Outcome environment of one timer tick: whether the variable fetch,
the reconnect and the retried fetch would succeed. -/
structure TickEnv where
  fetchOk : Bool
  reconnectOk : Bool
  retryOk : Bool
deriving DecidableEq

/-- Trace of one timer tick of the polling goroutine (ups.go lines
117-129): a failed fetch is logged and triggers one Reconnect; when
the reconnect succeeds the fetch is retried once and its failure is
only logged; when the reconnect fails it is only logged. The tick
always runs to completion. -/
def pollTick (e : TickEnv) : List PollAct :=
  if e.fetchOk then [PollAct.fetchVars]
  else if e.reconnectOk then [PollAct.fetchVars, PollAct.reconnectTry, PollAct.fetchVars]
  else [PollAct.fetchVars, PollAct.reconnectTry]

/-- Events the polling goroutine selects on: a timer tick or the
context cancellation. -/
inductive PollEvent where
  | tick (e : TickEnv)
  | cancel
deriving DecidableEq

/-- The polling loop (ups.go lines 116-135): processes tick events
until the cancellation event, which stops the ticker and returns;
no tick outcome ends the loop. -/
def pollLoop : List PollEvent → List (List PollAct)
  | [] => []
  | PollEvent.cancel :: _ => []
  | PollEvent.tick e :: rest => pollTick e :: pollLoop rest

/-- Number of occurrences of one action in a trace. -/
def countAct (a : PollAct) (l : List PollAct) : Nat :=
  (l.filter (fun x => x == a)).length

/-- Reduction of a natural number modulo 2^32. -/
def w32 (n : Nat) : Nat := n % 4294967296

/-- All-ones 32-bit mask. -/
def mask32 : Nat := 4294967295

/-- Left rotation of a 32-bit word. -/
def rotl32 (x s : Nat) : Nat :=
  ((x % 4294967296) * 2 ^ s) % 4294967296 + (x % 4294967296) / 2 ^ (32 - s)

/-- MD5 auxiliary function F. -/
def md5F (b c d : Nat) : Nat := (b &&& c) ||| ((mask32 ^^^ b) &&& d)

/-- MD5 auxiliary function G. -/
def md5G (b c d : Nat) : Nat := (b &&& d) ||| (c &&& (mask32 ^^^ d))

/-- MD5 auxiliary function H. -/
def md5H (b c d : Nat) : Nat := b ^^^ c ^^^ d

/-- MD5 auxiliary function I. -/
def md5I (b c d : Nat) : Nat := c ^^^ (b ||| (mask32 ^^^ d))

/-- The 64 MD5 sine-derived constants (RFC 1321). -/
def md5K : List Nat :=
  [0xd76aa478, 0xe8c7b756, 0x242070db, 0xc1bdceee,
   0xf57c0faf, 0x4787c62a, 0xa8304613, 0xfd469501,
   0x698098d8, 0x8b44f7af, 0xffff5bb1, 0x895cd7be,
   0x6b901122, 0xfd987193, 0xa679438e, 0x49b40821,
   0xf61e2562, 0xc040b340, 0x265e5a51, 0xe9b6c7aa,
   0xd62f105d, 0x02441453, 0xd8a1e681, 0xe7d3fbc8,
   0x21e1cde6, 0xc33707d6, 0xf4d50d87, 0x455a14ed,
   0xa9e3e905, 0xfcefa3f8, 0x676f02d9, 0x8d2a4c8a,
   0xfffa3942, 0x8771f681, 0x6d9d6122, 0xfde5380c,
   0xa4beea44, 0x4bdecfa9, 0xf6bb4b60, 0xbebfbc70,
   0x289b7ec6, 0xeaa127fa, 0xd4ef3085, 0x04881d05,
   0xd9d4d039, 0xe6db99e5, 0x1fa27cf8, 0xc4ac5665,
   0xf4292244, 0x432aff97, 0xab9423a7, 0xfc93a039,
   0x655b59c3, 0x8f0ccc92, 0xffeff47d, 0x85845dd1,
   0x6fa87e4f, 0xfe2ce6e0, 0xa3014314, 0x4e0811a1,
   0xf7537e82, 0xbd3af235, 0x2ad7d2bb, 0xeb86d391]

/-- The 64 MD5 per-round left-rotation amounts. -/
def md5S : List Nat :=
  [7, 12, 17, 22, 7, 12, 17, 22, 7, 12, 17, 22, 7, 12, 17, 22,
   5, 9, 14, 20, 5, 9, 14, 20, 5, 9, 14, 20, 5, 9, 14, 20,
   4, 11, 16, 23, 4, 11, 16, 23, 4, 11, 16, 23, 4, 11, 16, 23,
   6, 10, 15, 21, 6, 10, 15, 21, 6, 10, 15, 21, 6, 10, 15, 21]

/-- Little-endian byte decomposition: k bytes of x. -/
def toLEBytes : Nat → Nat → List Nat
  | 0, _ => []
  | k + 1, x => (x % 256) :: toLEBytes k (x / 256)

/-- UTF-8 encoding of one character, as Go byte-slice conversion of a
string performs it. -/
def utf8Char (c : Char) : List Nat :=
  let n := c.toNat
  if n < 0x80 then [n]
  else if n < 0x800 then [0xC0 + n / 64, 0x80 + n % 64]
  else if n < 0x10000 then [0xE0 + n / 4096, 0x80 + (n / 64) % 64, 0x80 + n % 64]
  else [0xF0 + n / 262144, 0x80 + (n / 4096) % 64, 0x80 + (n / 64) % 64, 0x80 + n % 64]

/-- UTF-8 encoding of a modelled Go string. -/
def utf8Bytes (s : GStr) : List Nat := (s.map utf8Char).flatten

/-- MD5 padding: one 0x80 byte, zeros to 56 mod 64, the bit length as
eight little-endian bytes. -/
def md5Pad (msg : List Nat) : List Nat :=
  let len := msg.length
  let zeros := (120 - (len + 1) % 64) % 64
  msg ++ [128] ++ List.replicate zeros 0 ++ toLEBytes 8 (8 * len)

/-- Little-endian 32-bit word j of a 64-byte block. -/
def leWord (block : List Nat) (j : Nat) : Nat :=
  block.getD (4 * j) 0 + 256 * block.getD (4 * j + 1) 0 +
  65536 * block.getD (4 * j + 2) 0 + 16777216 * block.getD (4 * j + 3) 0

/-- One of the 64 MD5 rounds on the register quadruple. -/
def md5Step (block : List Nat) (st : Nat × Nat × Nat × Nat) (i : Nat) :
    Nat × Nat × Nat × Nat :=
  let a := st.1
  let b := st.2.1
  let c := st.2.2.1
  let d := st.2.2.2
  let fg : Nat × Nat :=
    if i < 16 then (md5F b c d, i)
    else if i < 32 then (md5G b c d, (5 * i + 1) % 16)
    else if i < 48 then (md5H b c d, (3 * i + 5) % 16)
    else (md5I b c d, (7 * i) % 16)
  (d, w32 (b + rotl32 (a + fg.1 + md5K.getD i 0 + leWord block fg.2) (md5S.getD i 0)), b, c)

/-- Digest state after consuming the message 64 bytes at a time; the
first argument is structural fuel bounding the number of 64-byte
blocks (any bound of at least length/64 steps gives the Go behavior). -/
def md5BlocksGo : Nat → List Nat → Nat × Nat × Nat × Nat → Nat × Nat × Nat × Nat
  | 0, _, st => st
  | _ + 1, [], st => st
  | fuel + 1, bs, st =>
    let block := bs.take 64
    let r := (List.range 64).foldl (md5Step block) st
    md5BlocksGo fuel (bs.drop 64)
      (w32 (st.1 + r.1), w32 (st.2.1 + r.2.1), w32 (st.2.2.1 + r.2.2.1), w32 (st.2.2.2 + r.2.2.2))

/-- Digest state after consuming the padded message: the byte count
itself is ample fuel, since every step consumes 64 bytes. -/
def md5Blocks (bs : List Nat) (st : Nat × Nat × Nat × Nat) : Nat × Nat × Nat × Nat :=
  md5BlocksGo bs.length bs st

/-- The MD5 initial register values. -/
def md5Init : Nat × Nat × Nat × Nat := (0x67452301, 0xefcdab89, 0x98badcfe, 0x10325476)

/-- MD5 digest of a byte sequence, as crypto/md5 computes it. -/
def md5 (msg : List Nat) : List Nat :=
  let r := md5Blocks (md5Pad msg) md5Init
  toLEBytes 4 r.1 ++ toLEBytes 4 r.2.1 ++ toLEBytes 4 r.2.2.1 ++ toLEBytes 4 r.2.2.2

/-- The URL-safe base64 alphabet of encoding/base64 URLEncoding. -/
def b64Alphabet : GStr :=
  gs "ABCDEFGHIJKLMNOPQRSTUVWXYZabcdefghijklmnopqrstuvwxyz0123456789-_"

/-- Character of one 6-bit group. -/
def b64Char (n : Nat) : Char := b64Alphabet.getD n 'A'

/-- Padded URL-safe base64 encoding of a byte sequence. -/
def b64urlEncode : List Nat → GStr
  | b1 :: b2 :: b3 :: rest =>
    let n := b1 * 65536 + b2 * 256 + b3
    b64Char (n / 262144) :: b64Char (n / 4096 % 64) :: b64Char (n / 64 % 64) ::
      b64Char (n % 64) :: b64urlEncode rest
  | [b1, b2] =>
    let n := b1 * 65536 + b2 * 256
    [b64Char (n / 262144), b64Char (n / 4096 % 64), b64Char (n / 64 % 64), '=']
  | [b1] =>
    let n := b1 * 65536
    [b64Char (n / 262144), b64Char (n / 4096 % 64), '=', '=']
  | [] => []

/-- Model of UPS.GenerateID (ups.go lines 140-155): concatenate the
server address, name, product identifier and vendor identifier byte
strings (each of the last three only when non-empty, which never
changes the concatenation), hash with MD5, base64url-encode, keep the
first six characters. -/
def generateID (server nm productID vendorID : GStr) : GStr :=
  let input := utf8Bytes server
  let input := if nm ≠ [] then input ++ utf8Bytes nm else input
  let input := if productID ≠ [] then input ++ utf8Bytes productID else input
  let input := if vendorID ≠ [] then input ++ utf8Bytes vendorID else input
  (b64urlEncode (md5 input)).take 6

/-- UPS record carrying only a variable snapshot, used to state the
derived-reading claims. -/
def upsOf (vars : List GoVariable) : GoUPS :=
  { server := [], name := gs "u", description := [], manufacturer := [], model := [],
    vendorID := [], productID := [], clients := [], varList := vars }

/-- Integer-typed variable entry as GetVariables stores it. -/
def vInt (nm : String) (i : Int) : GoVariable :=
  { name := gs nm, value := GoValue.int i, type := gs "INTEGER", description := [],
    writeable := false, maximumLength := 0, originalType := gs "INTEGER" }

/-- Snapshot holding a single string-valued ups.status variable. -/
def statusUps (s : GStr) : GoUPS :=
  upsOf [{ name := gs "ups.status", value := GoValue.str s, type := gs "STRING",
           description := [], writeable := false, maximumLength := 0,
           originalType := gs "UNKNOWN" }]

/-- Rendering of one status code per the amended claim C5: the first
word keeps the table capitalization, later table hits are lower-cased,
and an unknown code is the literal Unknown in every position. -/
def specStatusWord (isFirst : Bool) (code : GStr) : GStr :=
  match statusLookup code with
  | some d => if isFirst then d else asciiLower d
  | none => gs "Unknown"

/-- Rendering of a code list per the amended claim C5. -/
def specStatusRender (codes : List GStr) : GStr :=
  match codes with
  | [] => []
  | c :: rest => joinSep (gs ", ") (specStatusWord true c :: rest.map (specStatusWord false))

/-- Devices of a LIST UPS response whose bootstrap succeeds, in
response order (the reference list for claim C7). -/
def bootSuccesses (bootstrap : GStr → Option DiscoveredUPS) (resp : List GStr) :
    List DiscoveredUPS :=
  resp.filterMap (fun line =>
    if List.isPrefixOf (gs "UPS ") line then bootstrap (parseUPSName line) else none)

/-- Environment whose server rejects every command, used by witnesses. -/
def envReject : NetEnv := fun _ => [lineOf (gs "ERR ACCESS-DENIED")]

/-- Empty-snapshot UPS record used by witnesses. -/
def upsEmpty : GoUPS := upsOf []

/-! Helper lemmas shared by several claim theorems. -/

/-- A raw reader line is never empty: it ends with its newline. -/
theorem lineOf_isEmpty (c : GStr) : (lineOf c).isEmpty = false := by
  cases c <;> rfl

/-- Trimming the newline terminator recovers the payload. -/
theorem trimNL_lineOf (c : GStr) : goTrimSuffixL (gs "\n") (lineOf c) = c := by
  show goTrimSuffixL ['\n'] (c ++ ['\n']) = c
  rw [goTrimSuffixL, if_pos]
  · simp [lineOf, List.length_append]
  · simp [List.isSuffixOf, List.reverse_append, List.isPrefixOf]

/-- Splitting at a character that does not occur returns the whole string. -/
theorem splitChar_no_sep (c : Char) (s : GStr) (h : c ∉ s) : splitChar c s = [s] := by
  induction s with
  | nil => rfl
  | cons a as ih =>
    have ht : splitChar c as = [as] := ih (fun hm => h (List.mem_cons_of_mem a hm))
    have hne : ¬ ((a == c) = true) := by
      simp only [beq_iff_eq]
      intro hc
      exact h (hc ▸ List.mem_cons_self a as)
    simp only [splitChar, splitPred] at ht ⊢
    rw [ht]
    simp [hne]

/-- Reading a single-line response stops at the first line whatever it is. -/
theorem readResponse_single (content endLine : GStr) (rest : List GStr)
    (hnl : '\n' ∉ content) :
    readResponse (lineOf content :: rest) endLine false = some [content] := by
  simp only [readResponse, lineOf_isEmpty]
  simp only [Bool.false_eq_true, if_false]
  simp only [eq_self_iff_true, or_true, if_true]
  rw [trimNL_lineOf, splitChar_no_sep '\n' content hnl]

/-- The payload-plus-newline framing is injective. -/
theorem lineOf_inj {a b : GStr} (h : lineOf a = lineOf b) : a = b := by
  have := congrArg List.dropLast h
  simpa [lineOf] using this

/-- Reading a multi-line response consumes lines up to and including
the end line and returns all of them, the end line included. -/
theorem readResponse_multi (contents : List GStr) (endC : GStr)
    (hend : '\n' ∉ endC)
    (hc : ∀ x ∈ contents, '\n' ∉ x ∧ x ≠ endC) :
    readResponse (contents.map lineOf ++ [lineOf endC]) (lineOf endC) true
      = some (contents ++ [endC]) := by
  induction contents with
  | nil =>
    simp only [List.map_nil, List.nil_append]
    simp only [readResponse, lineOf_isEmpty]
    simp only [Bool.false_eq_true, if_false]
    rw [if_pos (Or.inl trivial)]
    rw [trimNL_lineOf, splitChar_no_sep '\n' endC hend]
  | cons c cs ih =>
    have hcc := hc c (List.mem_cons_self c cs)
    have hcs : ∀ x ∈ cs, '\n' ∉ x ∧ x ≠ endC := fun x hx => hc x (List.mem_cons_of_mem c hx)
    simp only [List.map_cons, List.cons_append]
    simp only [readResponse, lineOf_isEmpty]
    simp only [Bool.false_eq_true, if_false]
    rw [if_neg]
    · rw [ih hcs, trimNL_lineOf, splitChar_no_sep '\n' c hcc.1]
      simp
    · rintro (h1 | h2)
      · exact hcc.2 (lineOf_inj h1)
      · exact Bool.noConfusion h2

/-- Claim C1 counterexample: for a valid three-line LIST UPS reply the
codec returns all three lines, framing included, not only the interior
data line. -/
theorem claim1_counterexample :
    sendCommandM
        [lineOf (gs "BEGIN LIST UPS"), lineOf (gs "UPS dummy \"desc\""),
         lineOf (gs "END LIST UPS")] (gs "LIST UPS")
      = Except.ok [gs "BEGIN LIST UPS", gs "UPS dummy \"desc\"", gs "END LIST UPS"]
    ∧ [gs "BEGIN LIST UPS", gs "UPS dummy \"desc\"", gs "END LIST UPS"]
      ≠ [gs "UPS dummy \"desc\""] :=
  ⟨rfl, by decide⟩

/-- Claim C1 (amended): for every valid multi-line reply to a LIST
command, sendCommand/readResponse return every response line in
original order, the opening framing line and the terminating END line
included; the interior extraction is the resp[1:len-1] slice done by
each caller, which recovers exactly the interior lines in order. -/
theorem claim1_amended (sub first : GStr) (body : List GStr)
    (hsubnl : '\n' ∉ sub)
    (hlines : ∀ x ∈ first :: body, '\n' ∉ x ∧ x ≠ gs "END LIST " ++ sub)
    (herr : List.isPrefixOf (gs "ERR ") first = false) :
    sendCommandM (((first :: body).map lineOf) ++ [lineOf (gs "END LIST " ++ sub)])
        (gs "LIST " ++ sub)
      = Except.ok (first :: (body ++ [gs "END LIST " ++ sub]))
    ∧ ((first :: (body ++ [gs "END LIST " ++ sub])).drop 1).dropLast = body := by
  constructor
  · have h1 : List.isPrefixOf (gs "USERNAME ") (gs "LIST " ++ sub ++ gs "\n") = false := rfl
    have h2 : List.isPrefixOf (gs "PASSWORD ") (gs "LIST " ++ sub ++ gs "\n") = false := rfl
    have h3 : List.isPrefixOf (gs "SET ") (gs "LIST " ++ sub ++ gs "\n") = false := rfl
    have h4 : List.isPrefixOf (gs "HELP ") (gs "LIST " ++ sub ++ gs "\n") = false := rfl
    have h5 : List.isPrefixOf (gs "VER ") (gs "LIST " ++ sub ++ gs "\n") = false := rfl
    have h6 : List.isPrefixOf (gs "NETVER ") (gs "LIST " ++ sub ++ gs "\n") = false := rfl
    have hm : List.isPrefixOf (gs "LIST ") (gs "LIST " ++ sub ++ gs "\n") = true := by
      have : List.isPrefixOf (gs "LIST ") (gs "LIST " ++ (sub ++ gs "\n")) = true := by
        have hp : gs "LIST " <+: gs "LIST " ++ (sub ++ gs "\n") := ⟨sub ++ gs "\n", rfl⟩
        exact List.isPrefixOf_iff_prefix.mpr hp
      simp only [List.append_assoc]
      exact this
    have hend : gs "END " ++ (gs "LIST " ++ sub ++ gs "\n") = lineOf (gs "END LIST " ++ sub) := by
      simp only [lineOf, List.append_assoc]
      rfl
    have hendnl : '\n' ∉ gs "END LIST " ++ sub := by
      intro hmem
      rcases List.mem_append.mp hmem with hl | hr
      · exact absurd hl (by decide)
      · exact hsubnl hr
    unfold sendCommandM
    simp only [h1, h2, h3, h4, h5, h6, hm]
    simp only [Bool.false_eq_true, false_or, or_self, if_false]
    rw [hend]
    rw [readResponse_multi (first :: body) (gs "END LIST " ++ sub) hendnl hlines]
    simp only [List.cons_append]
    rw [if_neg (fun hp => Bool.noConfusion (herr.symm.trans hp))]
  · simp

/-- Claim C1 witness: the amended theorem evaluated on a concrete
three-line LIST UPS exchange. -/
theorem claim1_witness :
    sendCommandM (([gs "BEGIN LIST UPS", gs "UPS dummy \"d\""].map lineOf)
        ++ [lineOf (gs "END LIST " ++ gs "UPS")]) (gs "LIST " ++ gs "UPS")
      = Except.ok (gs "BEGIN LIST UPS" :: ([gs "UPS dummy \"d\""] ++ [gs "END LIST " ++ gs "UPS"]))
    ∧ (((gs "BEGIN LIST UPS" :: ([gs "UPS dummy \"d\""] ++ [gs "END LIST " ++ gs "UPS"])).drop 1).dropLast
        = [gs "UPS dummy \"d\""]) :=
  claim1_amended (gs "UPS") (gs "BEGIN LIST UPS") [gs "UPS dummy \"d\""]
    (by decide) (by decide) (by decide)

/-- Claim C4 counterexample: for a USERNAME command the reader stops
after the first line even though that line is not the OK sentinel, so
reading does not continue until OK is observed. -/
theorem claim4_counterexample :
    sendCommandM [lineOf (gs "BADREPLY"), lineOf (gs "OK")] (gs "USERNAME admin")
      = Except.ok [gs "BADREPLY"]
    ∧ gs "BADREPLY" ≠ gs "OK" :=
  ⟨rfl, by decide⟩

/-- Claim C4 (amended): for every non-LIST command, the commands
USERNAME, PASSWORD, SET, HELP, VER and NETVER included, the read
returns after exactly the first response line whatever its content;
the OK sentinel is never waited for because the loop breaks after one
line for every single-line command. -/
theorem claim4_amended (cmd content : GStr) (rest : List GStr)
    (hnotlist : List.isPrefixOf (gs "LIST ") (cmd ++ gs "\n") = false)
    (hnl : '\n' ∉ content)
    (herr : List.isPrefixOf (gs "ERR ") content = false) :
    sendCommandM (lineOf content :: rest) cmd = Except.ok [content] := by
  simp only [sendCommandM]
  rw [hnotlist, readResponse_single content _ rest hnl]
  simp only [herr, Bool.false_eq_true, if_false]

/-- Claim C4 witness: the amended theorem evaluated on a concrete
USERNAME exchange whose first reply line is not OK. -/
theorem claim4_witness :
    sendCommandM (lineOf (gs "NOTOK") :: [lineOf (gs "OK")]) (gs "USERNAME admin")
      = Except.ok [gs "NOTOK"] :=
  claim4_amended (gs "USERNAME admin") (gs "NOTOK") [lineOf (gs "OK")]
    (by decide) (by decide) (by decide)

/-- The executable float-parse test is exactly the bound on the
absolute decimal value: the parse succeeds iff the magnitude stays
below the float64 infinity rounding bound. -/
theorem parseFloat64Ok_spec (s : GStr) :
    parseFloat64Ok s = true ↔ |decToRat s| < float64Bound := by
  simp only [parseFloat64Ok, decToRat, float64Bound, decide_eq_true_eq]
  generalize (s.head? == some '-') = ng
  generalize (if ng = true then s.drop 1 else s) = t
  generalize hk : (fracPart (t.dropWhile isDigitCh)).length = k
  generalize digitsToNat (t.takeWhile isDigitCh ++ fracPart (t.dropWhile isDigitCh)) = N
  have hq : (0 : ℚ) ≤ (N : ℚ) / (10 : ℚ) ^ k := by positivity
  have habs : |if ng = true then -((N : ℚ) / (10 : ℚ) ^ k) else (N : ℚ) / (10 : ℚ) ^ k|
      = (N : ℚ) / (10 : ℚ) ^ k := by
    cases ng
    · simpa using abs_of_nonneg hq
    · rw [if_pos (by trivial), abs_neg]
      exact abs_of_nonneg hq
  rw [habs, div_lt_iff₀ (by positivity : (0 : ℚ) < (10 : ℚ) ^ k)]
  have hle : (2 : Nat) ^ 970 ≤ 2 ^ 1024 := Nat.pow_le_pow_right (by norm_num) (by norm_num)
  have hcast : (((2 ^ 1024 - 2 ^ 970) * 10 ^ k : Nat) : ℚ)
      = ((2 : ℚ) ^ 1024 - (2 : ℚ) ^ 970) * (10 : ℚ) ^ k := by
    push_cast [Nat.cast_sub hle]
    ring
  constructor
  · intro h
    have h2 := (Nat.cast_lt (α := ℚ)).mpr h
    rw [hcast] at h2
    exact h2
  · intro h
    have h2 : (N : ℚ) < (((2 ^ 1024 - 2 ^ 970) * 10 ^ k : Nat) : ℚ) := by
      rw [hcast]
      exact h
    exact_mod_cast h2

/-- Claim C2 counterexample: this 20-digit string matches the integer
pattern and has no decimal point, yet GetVariables does not store an
integer-typed value: ParseInt overflows the signed 64-bit range, so
the stored value stays the raw string and the stored type stays the
server-declared type. -/
theorem claim2_counterexample :
    matchesNumeric (gs "99999999999999999999") = true
    ∧ containsChar '.' (gs "99999999999999999999") = false
    ∧ inferValue (gs "99999999999999999999") (gs "UNKNOWN")
      = (GoValue.str (gs "99999999999999999999"), gs "UNKNOWN") :=
  ⟨by decide, by decide, by decide⟩

/-- Claim C2 (amended): value typing of GetVariables on a raw value
string: literal enabled and disabled give booleans with highest
precedence; a string matching the integer pattern whose value fits the
signed 64-bit range gives an integer; a string matching the decimal
pattern that the float parser accepts gives a float; every other
string gives a string-typed value with type STRING; a pattern-matching
numeric string whose parse fails keeps the raw string value and the
server-declared type. -/
theorem claim2_amended (s t : GStr) :
    (s = gs "enabled" → inferValue s t = (GoValue.boolean true, gs "BOOLEAN"))
    ∧ (s = gs "disabled" → inferValue s t = (GoValue.boolean false, gs "BOOLEAN"))
    ∧ (matchesNumeric s = true → containsChar '.' s = false →
        ∀ i : Int, parseInt64 s = some i → inferValue s t = (GoValue.int i, gs "INTEGER"))
    ∧ (matchesNumeric s = true → containsChar '.' s = true → parseFloat64Ok s = true →
        inferValue s t = (GoValue.float (decToRat s), gs "FLOAT_64"))
    ∧ (matchesNumeric s = false → s ≠ gs "enabled" → s ≠ gs "disabled" →
        inferValue s t = (GoValue.str s, gs "STRING"))
    ∧ (matchesNumeric s = true → containsChar '.' s = false → parseInt64 s = none →
        inferValue s t = (GoValue.str s, t))
    ∧ (matchesNumeric s = true → containsChar '.' s = true → parseFloat64Ok s = false →
        inferValue s t = (GoValue.str s, t)) := by
  refine ⟨?_, ?_, ?_, ?_, ?_, ?_, ?_⟩
  · intro hs
    subst hs
    rfl
  · intro hs
    subst hs
    rfl
  · intro hm hd i hp
    have h1 : ¬ s = gs "enabled" := by
      rintro rfl
      exact absurd hm (by decide)
    have h2 : ¬ s = gs "disabled" := by
      rintro rfl
      exact absurd hm (by decide)
    simp only [inferValue, if_neg h1, if_neg h2, hm, hd, if_true, Bool.false_eq_true,
      if_false, hp]
  · intro hm hd hf
    have h1 : ¬ s = gs "enabled" := by
      rintro rfl
      exact absurd hm (by decide)
    have h2 : ¬ s = gs "disabled" := by
      rintro rfl
      exact absurd hm (by decide)
    simp only [inferValue, if_neg h1, if_neg h2, hm, hd, hf, if_true]
  · intro hm h1 h2
    simp only [inferValue, if_neg h1, if_neg h2, hm, Bool.false_eq_true, if_false]
  · intro hm hd hp
    have h1 : ¬ s = gs "enabled" := by
      rintro rfl
      exact absurd hm (by decide)
    have h2 : ¬ s = gs "disabled" := by
      rintro rfl
      exact absurd hm (by decide)
    simp only [inferValue, if_neg h1, if_neg h2, hm, hd, if_true, Bool.false_eq_true,
      if_false, hp]
  · intro hm hd hf
    have h1 : ¬ s = gs "enabled" := by
      rintro rfl
      exact absurd hm (by decide)
    have h2 : ¬ s = gs "disabled" := by
      rintro rfl
      exact absurd hm (by decide)
    simp only [inferValue, if_neg h1, if_neg h2, hm, hd, if_true, hf, Bool.false_eq_true,
      if_false]

/-- Claim C2 witness: the amended theorem at a concrete integer string
and at the literal enabled. -/
theorem claim2_witness :
    inferValue (gs "42") (gs "UNKNOWN") = (GoValue.int 42, gs "INTEGER")
    ∧ inferValue (gs "enabled") (gs "UNKNOWN") = (GoValue.boolean true, gs "BOOLEAN")
    ∧ inferValue (gs "1000000000000000000000000000000000000000000000000000000000000000000000000000000000000000000000000000000000000000000000000000000000000000000000000000000000000000000000000000000000000000000000000000000000000000000000000000000000000000000000000000000000000000000000000000000000000000000000000000000000000000000000.5") (gs "UNKNOWN")
      = (GoValue.str (gs "1000000000000000000000000000000000000000000000000000000000000000000000000000000000000000000000000000000000000000000000000000000000000000000000000000000000000000000000000000000000000000000000000000000000000000000000000000000000000000000000000000000000000000000000000000000000000000000000000000000000000000000000.5"), gs "UNKNOWN") :=
  ⟨(claim2_amended (gs "42") (gs "UNKNOWN")).2.2.1 (by decide) (by decide) 42 (by decide),
   (claim2_amended (gs "enabled") (gs "UNKNOWN")).1 rfl,
   (claim2_amended (gs "1000000000000000000000000000000000000000000000000000000000000000000000000000000000000000000000000000000000000000000000000000000000000000000000000000000000000000000000000000000000000000000000000000000000000000000000000000000000000000000000000000000000000000000000000000000000000000000000000000000000000000000000.5") (gs "UNKNOWN")).2.2.2.2.2.2
     (by decide) (by decide) (by decide)⟩

/-- UTF-8 encoding distributes over concatenation. -/
theorem utf8Bytes_append (a b : GStr) : utf8Bytes (a ++ b) = utf8Bytes a ++ utf8Bytes b := by
  simp [utf8Bytes]

/-- The emptiness guards of GenerateID never change the hash input:
the identifier depends on the plain concatenation of the four fields. -/
theorem generateID_input (s n p v : GStr) :
    generateID s n p v = (b64urlEncode (md5 (utf8Bytes (s ++ n ++ p ++ v)))).take 6 := by
  have step : ∀ (acc : List Nat) (x : GStr),
      (if x ≠ [] then acc ++ utf8Bytes x else acc) = acc ++ utf8Bytes x := by
    intro acc x
    by_cases hx : x = []
    · subst hx
      simp [utf8Bytes]
    · rw [if_pos hx]
  simp only [generateID, step, utf8Bytes_append]

/-- Little-endian decomposition always yields the requested byte count. -/
theorem toLEBytes_length (k : Nat) : ∀ x, (toLEBytes k x).length = k := by
  induction k with
  | zero => intro x; rfl
  | succ m ih =>
    intro x
    simp [toLEBytes, ih]

/-- An MD5 digest is sixteen bytes. -/
theorem md5_length (m : List Nat) : (md5 m).length = 16 := by
  simp [md5, toLEBytes_length, List.length_append]

/-- Length of the padded base64 encoding. -/
theorem b64_length (bs : List Nat) : (b64urlEncode bs).length = 4 * ((bs.length + 2) / 3) := by
  induction bs using b64urlEncode.induct with
  | case1 b1 b2 b3 rest ih =>
    simp only [b64urlEncode, List.length_cons]
    rw [ih]
    omega
  | case2 b1 b2 =>
    simp only [b64urlEncode, List.length_cons, List.length_nil]
  | case3 b1 =>
    simp only [b64urlEncode, List.length_cons, List.length_nil]
  | case4 => rfl

/-- A generated identifier always has six characters. -/
theorem generateID_length (s n p v : GStr) : (generateID s n p v).length = 6 := by
  rw [generateID_input, List.length_take, b64_length, md5_length]
  decide

/-- Claim C3 counterexample: two devices whose server/name tuples
differ produce the same identifier, because the hash input is the
concatenation of the fields without separators. -/
theorem claim3_counterexample :
    generateID (gs "ab") (gs "c") [] [] = generateID (gs "a") (gs "bc") [] []
    ∧ (gs "ab", gs "c", ([] : GStr), ([] : GStr)) ≠ (gs "a", gs "bc", ([] : GStr), ([] : GStr)) :=
  ⟨by decide, by decide⟩

/-- Claim C3 (amended): the identifier is a pure function of the
concatenation of server address, name, product identifier and vendor
identifier, and it always has six characters; identical tuples give
identical identifiers, but distinct tuples with equal concatenation
collide. -/
theorem claim3_amended (s n p v s2 n2 p2 v2 : GStr)
    (hcat : s ++ n ++ p ++ v = s2 ++ n2 ++ p2 ++ v2) :
    generateID s n p v = generateID s2 n2 p2 v2
    ∧ (generateID s n p v).length = 6 := by
  constructor
  · rw [generateID_input, generateID_input, hcat]
  · exact generateID_length s n p v

/-- Claim C3 witness: the amended theorem on a concrete device tuple. -/
theorem claim3_witness :
    (generateID (gs "h:3493") (gs "ups1") (gs "0002") (gs "051d")
      = generateID (gs "h:3493") (gs "ups1") (gs "0002") (gs "051d"))
    ∧ (generateID (gs "h:3493") (gs "ups1") (gs "0002") (gs "051d")).length = 6 :=
  claim3_amended (gs "h:3493") (gs "ups1") (gs "0002") (gs "051d")
    (gs "h:3493") (gs "ups1") (gs "0002") (gs "051d") rfl

/-- With a non-empty accumulator the GetStatus loop lower-cases every
further table hit and appends the literal Unknown for every miss. -/
theorem statusDescs_ne_nil (codes : List GStr) :
    ∀ acc, acc ≠ [] → statusDescs acc codes = acc ++ codes.map (specStatusWord false) := by
  induction codes with
  | nil =>
    intro acc ha
    simp [statusDescs]
  | cons c cs ih =>
    intro acc ha
    have hne : acc.isEmpty = false := by
      cases acc with
      | nil => exact absurd rfl ha
      | cons x xs => rfl
    cases hl : statusLookup c with
    | some d =>
      simp only [statusDescs, hl, hne, Bool.false_eq_true, if_false]
      rw [ih (acc ++ [asciiLower d]) (by simp)]
      simp [specStatusWord, hl]
    | none =>
      simp only [statusDescs, hl]
      rw [ih (acc ++ [gs "Unknown"]) (by simp)]
      simp [specStatusWord, hl]

/-- GetStatus on a string-valued snapshot renders exactly per the
amended rule and returns the raw code string unchanged. -/
theorem getStatus_spec (s : GStr) :
    getStatusM (statusUps s) = (specStatusRender (goFields s), s) := by
  have hv : getVariableM (statusUps s) (gs "ups.status") = some (GoValue.str s) := by
    simp [statusUps, upsOf, getVariableM, lookupVar]
  simp only [getStatusM, hv]
  refine Prod.ext ?_ rfl
  show joinSep (gs ", ") (statusDescs [] (goFields s)) = specStatusRender (goFields s)
  cases hf : goFields s with
  | nil => rfl
  | cons c cs =>
    cases hl : statusLookup c with
    | some d =>
      simp only [statusDescs, hl, List.isEmpty_nil, if_true, List.nil_append]
      rw [statusDescs_ne_nil cs [d] (by simp)]
      simp [specStatusRender, specStatusWord, hl]
    | none =>
      simp only [statusDescs, hl, List.nil_append]
      rw [statusDescs_ne_nil cs [gs "Unknown"] (by simp)]
      simp [specStatusRender, specStatusWord, hl]

/-- Claim C5 counterexample: for raw status OL FOO the unknown code
renders as capitalized Unknown even in non-first position, so the
human string is Online, Unknown and not Online, unknown. -/
theorem claim5_counterexample :
    (getStatusM (statusUps (gs "OL FOO"))).1 = gs "Online, Unknown"
    ∧ (getStatusM (statusUps (gs "OL FOO"))).1 ≠ gs "Online, unknown" :=
  ⟨by decide, by decide⟩

/-- Claim C5 (amended): GetStatus splits the raw status on whitespace,
maps known codes through the table, renders unknown codes as the
capitalized literal Unknown in every position, lower-cases table hits
after the first word, joins with comma-space, and returns the raw
string unmodified; on OL CHRG it yields Online, charging with raw
OL CHRG. -/
theorem claim5_amended :
    (∀ s : GStr, getStatusM (statusUps s) = (specStatusRender (goFields s), s))
    ∧ getStatusM (statusUps (gs "OL CHRG")) = (gs "Online, charging", gs "OL CHRG") :=
  ⟨getStatus_spec, by decide⟩

/-- Claim C6: GetLoad returns ups.realpower as power when that
variable is present with integer type; otherwise power is the Go
int64 expression load times nominal over hundred (the product wraps
on 64-bit overflow, the division truncates), with
ups.realpower.nominal preferred over ups.power.nominal and zero when
neither is present; the wrapped product equals the plain product
whenever it fits the signed 64-bit range, and in particular load 50
with realpower nominal 800 gives power 400. -/
theorem claim6_load_power :
    (∀ l p n1 n2 : Int,
      getLoadM (upsOf [vInt "ups.load" l, vInt "ups.realpower" p,
        vInt "ups.realpower.nominal" n1, vInt "ups.power.nominal" n2]) = (l, p))
    ∧ (∀ l n1 n2 : Int,
      getLoadM (upsOf [vInt "ups.load" l, vInt "ups.realpower.nominal" n1,
        vInt "ups.power.nominal" n2]) = (l, Int.tdiv (wrap64 (l * n1)) 100))
    ∧ (∀ l n2 : Int,
      getLoadM (upsOf [vInt "ups.load" l, vInt "ups.power.nominal" n2])
        = (l, Int.tdiv (wrap64 (l * n2)) 100))
    ∧ (∀ l : Int, getLoadM (upsOf [vInt "ups.load" l]) = (l, 0))
    ∧ (∀ l n : Int, -(2 ^ 63) ≤ l * n → l * n < 2 ^ 63 → wrap64 (l * n) = l * n)
    ∧ getLoadM (upsOf [vInt "ups.load" 50, vInt "ups.realpower.nominal" 800]) = (50, 400) := by
  refine ⟨?_, ?_, ?_, ?_, ?_, by decide⟩
  · intro l p n1 n2
    have d1 : ¬ (gs "ups.load" = gs "ups.realpower") := by decide
    have d2 : ¬ (gs "ups.load" = gs "ups.realpower.nominal") := by decide
    have d3 : ¬ (gs "ups.load" = gs "ups.power.nominal") := by decide
    have d4 : ¬ (gs "ups.realpower" = gs "ups.realpower.nominal") := by decide
    have d5 : ¬ (gs "ups.realpower" = gs "ups.power.nominal") := by decide
    have d6 : ¬ (gs "ups.realpower.nominal" = gs "ups.power.nominal") := by decide
    have d7 : ¬ (gs "ups.realpower.nominal" = gs "ups.realpower") := by decide
    have d8 : ¬ (gs "ups.power.nominal" = gs "ups.realpower") := by decide
    have d9 : ¬ (gs "ups.power.nominal" = gs "ups.realpower.nominal") := by decide
    simp [getLoadM, getVariableM, upsOf, vInt, lookupVar, d1, d2, d3, d4, d5, d6, d7, d8, d9]
  · intro l n1 n2
    have d1 : ¬ (gs "ups.load" = gs "ups.realpower") := by decide
    have d2 : ¬ (gs "ups.load" = gs "ups.realpower.nominal") := by decide
    have d3 : ¬ (gs "ups.load" = gs "ups.power.nominal") := by decide
    have d4 : ¬ (gs "ups.realpower" = gs "ups.realpower.nominal") := by decide
    have d5 : ¬ (gs "ups.realpower" = gs "ups.power.nominal") := by decide
    have d6 : ¬ (gs "ups.realpower.nominal" = gs "ups.power.nominal") := by decide
    have d7 : ¬ (gs "ups.realpower.nominal" = gs "ups.realpower") := by decide
    have d8 : ¬ (gs "ups.power.nominal" = gs "ups.realpower") := by decide
    have d9 : ¬ (gs "ups.power.nominal" = gs "ups.realpower.nominal") := by decide
    simp [getLoadM, getVariableM, upsOf, vInt, lookupVar, d1, d2, d3, d4, d5, d6, d7, d8, d9]
  · intro l n2
    have d1 : ¬ (gs "ups.load" = gs "ups.realpower") := by decide
    have d2 : ¬ (gs "ups.load" = gs "ups.realpower.nominal") := by decide
    have d3 : ¬ (gs "ups.load" = gs "ups.power.nominal") := by decide
    have d4 : ¬ (gs "ups.realpower" = gs "ups.realpower.nominal") := by decide
    have d5 : ¬ (gs "ups.realpower" = gs "ups.power.nominal") := by decide
    have d6 : ¬ (gs "ups.realpower.nominal" = gs "ups.power.nominal") := by decide
    have d7 : ¬ (gs "ups.realpower.nominal" = gs "ups.realpower") := by decide
    have d8 : ¬ (gs "ups.power.nominal" = gs "ups.realpower") := by decide
    have d9 : ¬ (gs "ups.power.nominal" = gs "ups.realpower.nominal") := by decide
    simp [getLoadM, getVariableM, upsOf, vInt, lookupVar, d1, d2, d3, d4, d5, d6, d7, d8, d9]
  · intro l
    have d1 : ¬ (gs "ups.load" = gs "ups.realpower") := by decide
    have d2 : ¬ (gs "ups.load" = gs "ups.realpower.nominal") := by decide
    have d3 : ¬ (gs "ups.load" = gs "ups.power.nominal") := by decide
    have d4 : ¬ (gs "ups.realpower" = gs "ups.realpower.nominal") := by decide
    have d5 : ¬ (gs "ups.realpower" = gs "ups.power.nominal") := by decide
    have d6 : ¬ (gs "ups.realpower.nominal" = gs "ups.power.nominal") := by decide
    have d7 : ¬ (gs "ups.realpower.nominal" = gs "ups.realpower") := by decide
    have d8 : ¬ (gs "ups.power.nominal" = gs "ups.realpower") := by decide
    have d9 : ¬ (gs "ups.power.nominal" = gs "ups.realpower.nominal") := by decide
    simp [getLoadM, getVariableM, upsOf, vInt, lookupVar, d1, d2, d3, d4, d5, d6, d7, d8, d9]
    decide
  · intro l n h1 h2
    simp only [wrap64]
    omega

/-- Claim C6 witness: the in-range hypothesis of the wraparound
clause discharged at the concrete 50 times 800 product. -/
theorem claim6_witness : wrap64 (50 * 800) = 50 * 800 :=
  claim6_load_power.2.2.2.2.1 50 800 (by decide) (by decide)

/-- Claim C8: Reconnect re-dials, re-authenticates and re-negotiates
both versions but never touches the device registry: whatever the
environment does, the list of registered devices and their identifiers
is unchanged, and discovery is not re-run. -/
theorem claim8_registry_frame (env : DialEnv) (c : GoClient) :
    ((reconnectM env c).1).list = c.list := by
  unfold reconnectM
  repeat' split
  all_goals rfl

/-- Looking up after appending one entry falls through to that entry
only when the key was absent before. -/
theorem regLookup_append (reg : List (GStr × DiscoveredUPS)) (q : GStr × DiscoveredUPS)
    (k : GStr) :
    regLookup (reg ++ [q]) k
      = (regLookup reg k <|> (if q.1 = k then some q.2 else none)) := by
  induction reg with
  | nil =>
    simp [regLookup]
  | cons p ps ih =>
    by_cases hp : p.1 = k
    · simp [regLookup, hp]
    · simp only [List.cons_append, regLookup, if_neg hp]
      exact ih

/-- Folding the discovery step from any starting registry: a key maps
to its entry in the starting registry when present, else to the first
successfully bootstrapped device of the response with that identifier. -/
theorem discover_fold (bootstrap : GStr → Option DiscoveredUPS) (resp : List GStr) :
    ∀ (reg : List (GStr × DiscoveredUPS)) (k : GStr),
    regLookup (resp.foldl (discoverStep bootstrap) reg) k
      = (regLookup reg k <|> (bootSuccesses bootstrap resp).find? (fun d => d.id == k)) := by
  induction resp with
  | nil =>
    intro reg k
    cases h : regLookup reg k <;> simp [bootSuccesses, h]
  | cons line rest ih =>
    intro reg k
    simp only [List.foldl_cons]
    by_cases hpre : gs "UPS " <+: line
    · cases hb : bootstrap (parseUPSName line) with
      | none =>
        rw [show discoverStep bootstrap reg line = reg by simp [discoverStep, hpre, hb]]
        rw [ih reg k]
        have hsucc : bootSuccesses bootstrap (line :: rest) = bootSuccesses bootstrap rest := by
          simp [bootSuccesses, hpre, hb]
        rw [hsucc]
      | some u =>
        have hsucc : bootSuccesses bootstrap (line :: rest) = u :: bootSuccesses bootstrap rest := by
          simp [bootSuccesses, hpre, hb]
        rw [hsucc]
        by_cases hid : u.id = k
        · subst hid
          have hfind : (u :: bootSuccesses bootstrap rest).find? (fun d => d.id == u.id)
              = some u := by
            simp [List.find?]
          rw [hfind]
          cases hreg : regLookup reg u.id with
          | some d =>
            rw [show discoverStep bootstrap reg line = reg by
              simp [discoverStep, hpre, hb, hreg]]
            rw [ih reg u.id, hreg]
            rfl
          | none =>
            rw [show discoverStep bootstrap reg line = reg ++ [(u.id, u)] by
              simp [discoverStep, hpre, hb, hreg]]
            rw [ih (reg ++ [(u.id, u)]) u.id, regLookup_append, hreg]
            simp
        · have hfind : (u :: bootSuccesses bootstrap rest).find? (fun d => d.id == k)
              = (bootSuccesses bootstrap rest).find? (fun d => d.id == k) := by
            have : (u.id == k) = false := beq_eq_false_iff_ne.mpr hid
            simp [List.find?, this]
          rw [hfind]
          cases hreg : regLookup reg u.id with
          | some d =>
            rw [show discoverStep bootstrap reg line = reg by
              simp [discoverStep, hpre, hb, hreg]]
            exact ih reg k
          | none =>
            rw [show discoverStep bootstrap reg line = reg ++ [(u.id, u)] by
              simp [discoverStep, hpre, hb, hreg]]
            rw [ih (reg ++ [(u.id, u)]) k, regLookup_append]
            rw [if_neg hid]
            cases regLookup reg k <;> rfl
    · rw [show discoverStep bootstrap reg line = reg by simp [discoverStep, hpre]]
      rw [ih reg k]
      have hsucc : bootSuccesses bootstrap (line :: rest) = bootSuccesses bootstrap rest := by
        simp [bootSuccesses, hpre]
      rw [hsucc]

/-- Claim C7: after a LIST UPS discovery pass the registry maps each
identifier to the first device of the response whose bootstrap
succeeded and derived that identifier; failed bootstraps are skipped
without aborting the rest, and a later device colliding on an
identifier is silently dropped. -/
theorem claim7_registry (bootstrap : GStr → Option DiscoveredUPS) (resp : List GStr)
    (k : GStr) :
    regLookup (getListOfUPSM bootstrap resp) k
      = (bootSuccesses bootstrap resp).find? (fun d => d.id == k) := by
  rw [getListOfUPSM, discover_fold bootstrap resp [] k]
  rfl

/-- Claim C9: a tick whose fetch fails performs exactly one reconnect
attempt and retries the fetch exactly once on reconnect success and
not at all on reconnect failure, a successful tick only fetches, and
the polling loop processes every event up to the first cancellation:
no tick outcome terminates it. -/
theorem claim9_poller :
    (∀ e : TickEnv, e.fetchOk = false →
      countAct PollAct.reconnectTry (pollTick e) = 1
      ∧ countAct PollAct.fetchVars (pollTick e) = (if e.reconnectOk then 2 else 1))
    ∧ (∀ e : TickEnv, e.fetchOk = true → pollTick e = [PollAct.fetchVars])
    ∧ (∀ evs : List PollEvent, (∀ ev ∈ evs, ev ≠ PollEvent.cancel) →
        (pollLoop evs).length = evs.length) := by
  refine ⟨?_, ?_, ?_⟩
  · intro e he
    by_cases hr : e.reconnectOk = true
    · simp [pollTick, he, hr, countAct]
    · simp [pollTick, he, hr, countAct]
  · intro e he
    simp [pollTick, he]
  · intro evs h
    induction evs with
    | nil => rfl
    | cons ev rest ih =>
      cases ev with
      | tick e =>
        have := ih (fun x hx => h x (List.mem_cons_of_mem _ hx))
        simp [pollLoop, this]
      | cancel =>
        exact absurd rfl (h PollEvent.cancel (List.mem_cons_self _ _))

/-- Claim C9 witness: the poller theorem at a concrete failing tick
followed by a successful tick, with no cancellation. -/
theorem claim9_witness :
    (countAct PollAct.reconnectTry (pollTick (TickEnv.mk false true true)) = 1
     ∧ countAct PollAct.fetchVars (pollTick (TickEnv.mk false true true))
        = (if (TickEnv.mk false true true).reconnectOk then 2 else 1))
    ∧ (pollLoop [PollEvent.tick (TickEnv.mk false true true),
                 PollEvent.tick (TickEnv.mk true true true)]).length
      = [PollEvent.tick (TickEnv.mk false true true),
         PollEvent.tick (TickEnv.mk true true true)].length :=
  ⟨claim9_poller.1 (TickEnv.mk false true true) rfl,
   claim9_poller.2.2 [PollEvent.tick (TickEnv.mk false true true),
     PollEvent.tick (TickEnv.mk true true true)] (by decide)⟩

/-- Claim C10: when GetVariables fails, by the LIST VAR command
failing or any per-variable GET DESC or GET TYPE round trip failing,
the stored snapshot is left untouched: the UPS record is returned
unchanged, and the wholesale replacement happens only on a fully
successful fetch. -/
theorem claim10_snapshot_frame (env : NetEnv) (u : GoUPS) (e : GStr)
    (h : (getVariablesM env u).2 = Except.error e) :
    (getVariablesM env u).1 = u := by
  unfold getVariablesM at h ⊢
  cases hs : sendCommandE env (gs "LIST VAR " ++ u.name) with
  | error e2 => simp [hs]
  | ok resp =>
    cases hp : processVarLines env u.name ((resp.drop 1).dropLast) with
    | error e2 =>
      rw [List.drop_one] at hp
      simp [hs, hp]
    | ok vars =>
      rw [hs] at h
      simp only [hp] at h
      exact absurd h (by simp)

/-- Claim C10 witness: the frame theorem on an environment whose
server never answers the LIST VAR command with a valid reply. -/
theorem claim10_witness :
    (getVariablesM envReject upsEmpty).2 = Except.error (gs "error reading response")
    ∧ (getVariablesM envReject upsEmpty).1 = upsEmpty :=
  ⟨rfl, claim10_snapshot_frame envReject upsEmpty (gs "error reading response") rfl⟩
